import Mathlib

/-!
Verification of the session and audio-cache engine of the music-guessing game.

The definitions below are a shallow embedding of the Python source:

* `Cache` and its operations embed `MusicCache` from `src/server.py`
  (`load`, `unload`, `get`, with the private helpers `_increase_reference`
  and `_decrease_reference` inlined).  The Python dict `_audio_data` is a
  partial map from track id to a pair of the reference counter and the
  decoded audio data; the asynchronous decode task is modelled at the
  granularity of its eventual result (the decoded audio of the track),
  which is what `get` observes.
* `Session` and its operations embed the `Session` class from
  `src/server.py` (`__init__`, `_active_next_music`, `guess`, `step`,
  `full_music`, `answer`, `sliced_music`, `finished`, `summarize`).
  The random shuffle of the catalog is modelled by parameterising session
  creation over an arbitrary play order, and `randint` is modelled by an
  oracle function together with the bounds the source passes to it;
  a call with an empty range (high bound below low bound) is a Python
  `ValueError`, modelled as an explicit error result.
* Fractional configuration values (skip-start, skip-end) are modelled as
  exact fractions (integer numerator and denominator), and Python
  `int(total * fraction)` as the exact truncated integer division
  (total * num) / den, which is truncation toward zero of the same
  rational value the source truncates.
-/

namespace MusicTest

/-- Track record of the catalog: a stable id together with the decoded
audio data its path decodes to (audio is modelled as a list of samples,
indexed the way pydub audio segments are indexed by milliseconds). -/
structure Track where
  id : Nat
  audio : List Nat
deriving DecidableEq

/-- The cache map of MusicCache: track id to (reference counter, decoded data).
Embeds the dict `_audio_data` of `src/server.py`. -/
def Cache : Type := Nat → Option (Int × List Nat)

/-- The empty cache, as built by `MusicCache.__init__`. -/
def emptyCache : Cache := fun _ => none

/-- Embeds `MusicCache.load`: if an entry for the track id exists its
reference counter is incremented (`_increase_reference`), otherwise a new
entry with counter 1 and the decode result of the track's path is created. -/
def cacheLoad (c : Cache) (t : Track) : Cache := fun k =>
  if k = t.id then
    match c t.id with
    | some vd => some (vd.1 + 1, vd.2)
    | none => some (1, t.audio)
  else c k

/-- Embeds `MusicCache.unload`: no-op when the entry is absent, otherwise
the reference counter is decremented and the entry deleted when the
counter reaches exactly zero (`_decrease_reference`). -/
def cacheUnload (c : Cache) (i : Nat) : Cache := fun k =>
  if k = i then
    match c i with
    | some vd => if vd.1 - 1 = 0 then none else some (vd.1 - 1, vd.2)
    | none => none
  else c k

/-- Embeds `MusicCache.get`: returns the decoded data for a resident entry
and `none` for an absent one (reference counters are not touched). -/
def cacheGet (c : Cache) (i : Nat) : Option (List Nat) :=
  (c i).map Prod.snd

/-- An entry for the given id is resident in the cache. -/
def present (c : Cache) (i : Nat) : Bool :=
  (c i).isSome

/-- The reference counter of the entry for the given id, 0 when absent. -/
def refCount (c : Cache) (i : Nat) : Int :=
  match c i with
  | some vd => vd.1
  | none => 0

/-- One call against the cache: a load of a track or an unload of an id. -/
inductive CacheEv where
  | load (t : Track)
  | unload (i : Nat)
deriving DecidableEq

/-- Run a finite sequence of load/unload calls against a cache. -/
def runCache : Cache → List CacheEv → Cache
  | c, [] => c
  | c, CacheEv.load t :: evs => runCache (cacheLoad c t) evs
  | c, CacheEv.unload i :: evs => runCache (cacheUnload c i) evs

/-- Number of load calls for the given id in a call sequence. -/
def loadCount (i : Nat) : List CacheEv → Nat
  | [] => 0
  | CacheEv.load t :: evs => (if t.id = i then 1 else 0) + loadCount i evs
  | CacheEv.unload _ :: evs => loadCount i evs

/-- Number of unload calls for the given id in a call sequence. -/
def unloadCount (i : Nat) : List CacheEv → Nat
  | [] => 0
  | CacheEv.load _ :: evs => unloadCount i evs
  | CacheEv.unload j :: evs => (if j = i then 1 else 0) + unloadCount i evs

/-- Number of matching unload calls for the given id along a run: the
unload calls that found the entry resident and hence actually decremented
its reference counter (an unload of an absent entry is a no-op in
`MusicCache.unload` and matches no load). -/
def matchedUnloadCount (i : Nat) : Cache → List CacheEv → Nat
  | _, [] => 0
  | c, CacheEv.load t :: evs => matchedUnloadCount i (cacheLoad c t) evs
  | c, CacheEv.unload j :: evs =>
      (if j = i ∧ present c j = true then 1 else 0) +
        matchedUnloadCount i (cacheUnload c j) evs

/-- A cache is good when every resident entry has reference counter at least 1. -/
def GoodCache (c : Cache) : Prop :=
  ∀ i v d, c i = some (v, d) → 1 ≤ v

lemma goodCache_empty : GoodCache emptyCache := by
  intro i v d h
  simp [emptyCache] at h

lemma goodCache_cacheLoad {c : Cache} (hc : GoodCache c) (t : Track) :
    GoodCache (cacheLoad c t) := by
  intro i v d h
  by_cases hi : i = t.id
  · subst hi
    simp only [cacheLoad, if_pos rfl] at h
    cases hcd : c t.id with
    | none => rw [hcd] at h; simp at h; omega
    | some vd =>
        rw [hcd] at h
        simp at h
        have := hc t.id vd.1 vd.2 (by rw [hcd])
        omega
  · simp only [cacheLoad, if_neg hi] at h
    exact hc i v d h

lemma goodCache_cacheUnload {c : Cache} (hc : GoodCache c) (j : Nat) :
    GoodCache (cacheUnload c j) := by
  intro i v d h
  by_cases hi : i = j
  · subst hi
    simp only [cacheUnload, if_pos rfl] at h
    cases hcd : c i with
    | none => rw [hcd] at h; simp at h
    | some vd =>
        rw [hcd] at h
        by_cases hz : vd.1 - 1 = 0
        · simp [hz] at h
        · simp [hz] at h
          have := hc i vd.1 vd.2 (by rw [hcd])
          omega
  · simp only [cacheUnload, if_neg hi] at h
    exact hc i v d h

lemma refCount_cacheLoad_self (c : Cache) (t : Track) :
    refCount (cacheLoad c t) t.id = refCount c t.id + 1 := by
  simp only [refCount, cacheLoad, if_pos rfl]
  cases c t.id with
  | none => simp
  | some vd => simp

lemma refCount_cacheLoad_ne (c : Cache) (t : Track) {i : Nat} (h : i ≠ t.id) :
    refCount (cacheLoad c t) i = refCount c i := by
  simp only [refCount, cacheLoad, if_neg h]

lemma refCount_cacheUnload_self (c : Cache) (i : Nat) :
    refCount (cacheUnload c i) i =
      refCount c i - (if present c i = true then 1 else 0) := by
  cases hcd : c i with
  | none => simp [refCount, cacheUnload, present, hcd]
  | some vd =>
      by_cases hz : vd.1 - 1 = 0
      · simp [refCount, cacheUnload, present, hcd, hz]
      · simp [refCount, cacheUnload, present, hcd, hz]

lemma refCount_cacheUnload_ne (c : Cache) (j : Nat) {i : Nat} (h : i ≠ j) :
    refCount (cacheUnload c j) i = refCount c i := by
  simp only [refCount, cacheUnload, if_neg h]

lemma present_iff_one_le_refCount {c : Cache} (hc : GoodCache c) (i : Nat) :
    present c i = true ↔ 1 ≤ refCount c i := by
  cases hcd : c i with
  | none => simp [present, refCount, hcd]
  | some vd =>
      have := hc i vd.1 vd.2 (by rw [hcd])
      simp [present, refCount, hcd]
      omega

lemma goodCache_runCache {c : Cache} (hc : GoodCache c) (evs : List CacheEv) :
    GoodCache (runCache c evs) := by
  induction evs generalizing c with
  | nil => exact hc
  | cons ev evs ih =>
      cases ev with
      | load t => exact ih (goodCache_cacheLoad hc t)
      | unload j => exact ih (goodCache_cacheUnload hc j)

lemma runCache_refCount (i : Nat) (evs : List CacheEv) :
    ∀ c : Cache,
      refCount (runCache c evs) i =
        refCount c i + (loadCount i evs : ℤ) - (matchedUnloadCount i c evs : ℤ) := by
  induction evs with
  | nil => intro c; simp [runCache, loadCount, matchedUnloadCount]
  | cons ev evs ih =>
      intro c
      cases ev with
      | load t =>
          have hrec := ih (cacheLoad c t)
          by_cases hti : t.id = i
          · subst hti
            simp only [runCache, loadCount, matchedUnloadCount, if_pos rfl]
            rw [hrec, refCount_cacheLoad_self]
            push_cast
            ring
          · simp only [runCache, loadCount, matchedUnloadCount, if_neg hti]
            rw [hrec, refCount_cacheLoad_ne c t (fun h => hti h.symm)]
            push_cast
            ring
      | unload j =>
          have hrec := ih (cacheUnload c j)
          by_cases hji : j = i
          · subst hji
            simp only [runCache, loadCount, matchedUnloadCount]
            rw [hrec, refCount_cacheUnload_self]
            by_cases hp : present c j = true
            · rw [if_pos hp, if_pos (⟨trivial, hp⟩ : True ∧ present c j = true)]
              push_cast
              ring
            · rw [if_neg hp, if_neg (fun h : True ∧ present c j = true => hp h.2)]
              push_cast
              ring
          · simp only [runCache, loadCount, matchedUnloadCount]
            rw [hrec, refCount_cacheUnload_ne c j (fun h => hji h.symm)]
            rw [if_neg (fun h => hji h.1)]
            push_cast
            ring

/-- C1: for every finite sequence of MusicCache load and unload calls, an
entry for a given track id is resident afterwards if and only if the number
of load calls for that id strictly exceeds the number of matching unload
calls (the unloads that found the entry resident and decremented it; when
no unload call was a no-op this is the plain unload count); moreover every
resident entry has reference counter at least 1, i.e. an entry is deleted
immediately when its counter reaches zero. -/
theorem C1_reference_counting (evs : List CacheEv) (i : Nat) :
    (present (runCache emptyCache evs) i = true ↔
       matchedUnloadCount i emptyCache evs < loadCount i evs) ∧
    (∀ v d, runCache emptyCache evs i = some (v, d) → 1 ≤ v) ∧
    (matchedUnloadCount i emptyCache evs = unloadCount i evs →
       (present (runCache emptyCache evs) i = true ↔
          unloadCount i evs < loadCount i evs)) := by
  have hg : GoodCache (runCache emptyCache evs) :=
    goodCache_runCache goodCache_empty evs
  have h0 : refCount emptyCache i = 0 := rfl
  have h := runCache_refCount i evs emptyCache
  rw [h0] at h
  refine ⟨?_, ?_, ?_⟩
  · rw [present_iff_one_le_refCount hg i, h]
    constructor
    · intro hle; omega
    · intro hlt; omega
  · intro v d hvd
    exact hg i v d hvd
  · intro hme
    rw [present_iff_one_le_refCount hg i, h, hme]
    constructor
    · intro hle; omega
    · intro hlt; omega

/-- Concrete track used by the witness of C1. -/
def witnessTrack : Track := { id := 3, audio := [0] }

theorem C1_reference_counting_witness :
    present (runCache emptyCache [CacheEv.load witnessTrack]) 3 = true ∧
      (1 : ℤ) ≤ 1 :=
  ⟨((C1_reference_counting [CacheEv.load witnessTrack] 3).2.2 rfl).mpr (by decide),
   (C1_reference_counting [CacheEv.load witnessTrack] 3).2.1 1 [0] rfl⟩

/-- A fractional configuration value num / den with positive denominator
(the toml config holds decimal fractions such as 0.05 = 5 / 100). -/
structure Frac where
  num : Int
  den : Int
deriving DecidableEq

/-- Python int(total * f) for a fraction f, computed exactly: truncation
toward zero of the rational product total * f, i.e. the truncated
division of total * f.num by f.den. -/
def truncMulFrac (total : Int) (f : Frac) : Int :=
  Int.tdiv (total * f.num) f.den

/-- The fraction 1 - f, exactly: (den - num) / den. -/
def oneSub (f : Frac) : Frac :=
  { num := f.den - f.num, den := f.den }

/-- Configuration values read from game.toml in `src/server.py`: the
skip-start and skip-end fractions and the clip length play_time
(already scaled to milliseconds by the source). -/
structure Config where
  skipStart : Frac
  skipEnd : Frac
  playTime : Int
deriving DecidableEq

/-- Client session state, embedding the fields set up by
`Session.__init__` in `src/server.py`: the not-yet-windowed rest of the
shuffled catalog (the generator `_musics`), the session identifier, the
progress counters `_guessed` and `_succeed`, the `_finalized` flag, the
slice start `_start_time` (initialized by the source to 0, not None), and
the active window `_active_musics`. -/
structure Session where
  remaining : List Track
  sessionId : Nat
  guessed : Nat
  succeed : Nat
  finalized : Bool
  startTime : Option Int
  activeMusics : List Track
deriving DecidableEq

/-- Embeds `Session._active_next_music`: pull the next track off the
shuffled catalog (if any), load it into the shared cache and append it to
the active window; a `StopIteration` (exhausted catalog) changes nothing. -/
def activeNextMusic (s : Session) (c : Cache) : Session × Cache :=
  match s.remaining with
  | [] => (s, c)
  | t :: rest =>
      ({ s with remaining := rest, activeMusics := s.activeMusics ++ [t] },
       cacheLoad c t)

/-- Embeds `Session.__init__` for a given shuffled play order: counters
start at zero, `_finalized` at False, `_start_time` at 0, and the window
is filled by three `_active_next_music` calls. -/
def initSession (order : List Track) (sid : Nat) (c : Cache) : Session × Cache :=
  let s0 : Session :=
    { remaining := order, sessionId := sid, guessed := 0, succeed := 0,
      finalized := false, startTime := some 0, activeMusics := [] }
  let p1 := activeNextMusic s0 c
  let p2 := activeNextMusic p1.1 p1.2
  activeNextMusic p2.1 p2.2

/-- Embeds the `Session._current_music` property: the head of the active
window, None when the window is empty. -/
def currentMusic (s : Session) : Option Track :=
  s.activeMusics.head?

/-- Embeds `Session.guess`: False without any change when the window is
empty; otherwise the result is whether the candidate equals the current
track's id, and only when not yet finalized the success counter is
incremented on a match and the finalized flag is set. -/
def guess (s : Session) (musicId : Nat) : Session × Bool :=
  match currentMusic s with
  | none => (s, false)
  | some m =>
      let result : Bool := m.id == musicId
      if s.finalized then (s, result)
      else
        (if result then { s with succeed := s.succeed + 1, finalized := true }
         else { s with finalized := true },
         result)

/-- Embeds `Session.step`: no-op when the window is empty; otherwise the
current track is unloaded from the shared cache and popped from the
window, the next catalog track (if any) is activated, `_start_time` is
reset to None, `_guessed` is incremented and `_finalized` cleared. -/
def step (s : Session) (c : Cache) : Session × Cache :=
  match currentMusic s with
  | none => (s, c)
  | some m =>
      let c1 := cacheUnload c m.id
      let p := activeNextMusic { s with activeMusics := s.activeMusics.tail } c1
      ({ p.1 with startTime := none, guessed := s.guessed + 1, finalized := false },
       p.2)

/-- Embeds `Session.logout`: unload every track of the active window from
the shared cache. -/
def logout (s : Session) (c : Cache) : Cache :=
  s.activeMusics.foldl (fun acc t => cacheUnload acc t.id) c

/-- Result of the full_music and answer properties: either the window was
empty (the source returns None before touching anything), or the current
track's data was missing from the cache (the source would crash after
having set the finalized flag), or a value together with the session
state after the call. -/
inductive RevealResult (α : Type) where
  | noMusic (s : Session)
  | cacheMiss (s : Session)
  | ok (s : Session) (value : α)
deriving DecidableEq

/-- Embeds the `Session.full_music` property: None when the window is
empty; otherwise the finalized flag is set (requesting the full music
forfeits the track) and the complete cached audio of the current track is
exported. -/
def fullMusic (s : Session) (c : Cache) : RevealResult (List Nat) :=
  match currentMusic s with
  | none => RevealResult.noMusic s
  | some m =>
      let s1 := if s.finalized then s else { s with finalized := true }
      match cacheGet c m.id with
      | none => RevealResult.cacheMiss s1
      | some data => RevealResult.ok s1 data

/-- Embeds the `Session.answer` property: None when the window is empty;
otherwise the finalized flag is set (requesting the answer forfeits the
track) and the current track's id is returned. -/
def answer (s : Session) : Option Nat × Session :=
  match currentMusic s with
  | none => (none, s)
  | some m =>
      let s1 := if s.finalized then s else { s with finalized := true }
      (some m.id, s1)

/-- Python list slicing l[a:b] for the non-negative indices the source
produces. -/
def pySlice (l : List Nat) (a b : Int) : List Nat :=
  (l.take b.toNat).drop a.toNat

/-- Result of the sliced_music property: as RevealResult, plus the
ValueError that `randint` raises when its upper bound is below its lower
bound (empty draw range). -/
inductive SliceResult where
  | noMusic (s : Session)
  | cacheMiss (s : Session)
  | valueError (s : Session)
  | ok (s : Session) (clip : List Nat)
deriving DecidableEq

/-- Embeds the `Session.sliced_music` property. None when the window is
empty. Otherwise the cached audio of the current track is read; when
`_start_time` is None a start is drawn by
randint(int(total * skip_start), min(int(total * (1 - skip_end)), total - play_time))
(modelled by the oracle `rand`, with a ValueError when the upper bound is
below the lower bound) and stored; finally the clip
audio[start : start + play_time] is exported. -/
def slicedMusic (cfg : Config) (rand : Int → Int → Int) (s : Session)
    (c : Cache) : SliceResult :=
  match currentMusic s with
  | none => SliceResult.noMusic s
  | some m =>
      match cacheGet c m.id with
      | none => SliceResult.cacheMiss s
      | some audio =>
          match s.startTime with
          | some st => SliceResult.ok s (pySlice audio st (st + cfg.playTime))
          | none =>
              let total : Int := audio.length
              let lo : Int := truncMulFrac total cfg.skipStart
              let hi : Int :=
                min (truncMulFrac total (oneSub cfg.skipEnd))
                  (total - cfg.playTime)
              if hi < lo then SliceResult.valueError s
              else
                let st := rand lo hi
                SliceResult.ok { s with startTime := some st }
                  (pySlice audio st (st + cfg.playTime))

/-- Embeds the `Session.finished` property: all musics of the catalog
(of size n) have been guessed. -/
def finished (n : Nat) (s : Session) : Bool :=
  s.guessed == n

/-- The summary record returned by the `Session.summarize` property. -/
structure Summary where
  total : Nat
  currentIndex : Nat
  guessed : Nat
  correct : Nat
deriving DecidableEq

/-- Embeds the `Session.summarize` property for a catalog of size n. -/
def summarize (n : Nat) (s : Session) : Summary :=
  { total := n,
    currentIndex := s.guessed + 1,
    guessed := s.guessed + (if s.finalized then 1 else 0),
    correct := s.succeed }

/-- A demo catalog track of length 10. -/
def trackA : Track := { id := 1, audio := [0, 1, 2, 3, 4, 5, 6, 7, 8, 9] }

/-- A second demo catalog track of length 10. -/
def trackB : Track := { id := 2, audio := [9, 8, 7, 6, 5, 4, 3, 2, 1, 0] }

/-- Demo configuration: skip fractions 1/10 and clip length 3, so a track
of length 10 has draw range [1, 7]. -/
def demoCfg : Config :=
  { skipStart := { num := 1, den := 10 }, skipEnd := { num := 1, den := 10 },
    playTime := 3 }

/-- Demo configuration with clip length 30: longer than the demo tracks,
so the draw range of a track of length 10 is empty. -/
def shortCfg : Config :=
  { skipStart := { num := 1, den := 10 }, skipEnd := { num := 1, den := 10 },
    playTime := 30 }

/-- A freshly created demo session over the two-track catalog. -/
def demoInit : Session × Cache := initSession [trackA, trackB] 0 emptyCache

/-- The demo session after one step: current track is trackB and the
slice start has been reset to None. -/
def demoStepped : Session × Cache := step demoInit.1 demoInit.2

/-- A one-track session, freshly created. -/
def soloInit : Session × Cache := initSession [trackA] 0 emptyCache

/-- The one-track session after stepping past its only track: the active
window is empty and the session is finished. -/
def soloDone : Session × Cache := step soloInit.1 soloInit.2

/-- C2: the source does not clamp the upper randint bound to the lower
one. On a track shorter than the clip length (here length 10 with clip
length 30) the upper bound min(int(total * (1 - skip_end)), total - play_time)
falls strictly below the lower bound int(total * skip_start), and
sliced_music fails with a ValueError instead of returning a clip with
start + clip_length bounded by the track length. -/
theorem C2_short_track_value_error (rand : Int → Int → Int) :
    slicedMusic shortCfg rand demoStepped.1 demoStepped.2 =
      SliceResult.valueError demoStepped.1 ∧
      demoStepped.1.startTime = none ∧
      min (truncMulFrac (trackB.audio.length : Int) (oneSub shortCfg.skipEnd))
          ((trackB.audio.length : Int) - shortCfg.playTime) <
        truncMulFrac (trackB.audio.length : Int) shortCfg.skipStart := by
  refine ⟨?_, rfl, ?_⟩
  · rfl
  · decide

/-- C3: right after session creation the slice start is 0, not None
(Session.__init__ sets _start_time = 0), so the first sliced_music call
for the first track never draws a random start inside
[int(total * skip_start), min(int(total * (1 - skip_end)), total - play_time)]:
it slices from offset 0, which lies strictly below the lower bound of the
claimed range. -/
theorem C3_first_track_slice_starts_at_zero (rand : Int → Int → Int) :
    demoInit.1.startTime = some 0 ∧
      slicedMusic demoCfg rand demoInit.1 demoInit.2 =
        SliceResult.ok demoInit.1 (pySlice trackA.audio 0 (0 + demoCfg.playTime)) ∧
      (0 : Int) < truncMulFrac (trackA.audio.length : Int) demoCfg.skipStart := by
  refine ⟨rfl, ?_, ?_⟩
  · rfl
  · decide

/-- C4 counterexample: a session that stepped past the last track of a
one-track catalog is finished with an empty window, yet summarize reports
current_index = 2 while total = 1, so current_index differs from total. -/
theorem C4_counterexample :
    finished 1 soloDone.1 = true ∧ soloDone.1.activeMusics = [] ∧
      (summarize 1 soloDone.1).currentIndex ≠ (summarize 1 soloDone.1).total := by
  decide

/-- C4 (amended): for every finished session over a catalog of n tracks,
summarize reports current_index equal to total + 1 (the source computes
_guessed + 1 and a finished session has _guessed = n). -/
theorem C4_current_index_after_finish (n : Nat) (s : Session)
    (h : finished n s = true) :
    (summarize n s).currentIndex = n + 1 := by
  simp only [finished, beq_iff_eq] at h
  simp [summarize, h]

theorem C4_current_index_after_finish_witness :
    (summarize 1 soloDone.1).currentIndex = 2 :=
  C4_current_index_after_finish 1 soloDone.1 (by decide)

/-- C5: guessing the current track's id on a non-finalized session with a
non-empty window returns true, increments the success counter by exactly
one and sets the finalized flag; and once a session is finalized no guess
call changes the success counter, whatever its argument. -/
theorem C5_guess_scoring (s : Session) (m : Track) (rest : List Track)
    (hw : s.activeMusics = m :: rest) (hf : s.finalized = false) :
    (guess s m.id).2 = true ∧
      (guess s m.id).1.succeed = s.succeed + 1 ∧
      (guess s m.id).1.finalized = true ∧
      ∀ s2 : Session, s2.finalized = true →
        ∀ cand, (guess s2 cand).1.succeed = s2.succeed := by
  have hcur : currentMusic s = some m := by simp [currentMusic, hw]
  refine ⟨?_, ?_, ?_, ?_⟩
  · simp [guess, hcur, hf]
  · simp [guess, hcur, hf]
  · simp [guess, hcur, hf]
  · intro s2 h2 cand
    cases hc2 : currentMusic s2 with
    | none => simp [guess, hc2]
    | some m2 => simp [guess, hc2, h2]

theorem C5_guess_scoring_witness :
    (guess demoInit.1 trackA.id).2 = true :=
  (C5_guess_scoring demoInit.1 trackA [trackB] rfl rfl).1

/-- C6: on every session with a non-empty window whose current track's
data is resident in the cache (finalized or not), full_music returns the
complete un-sliced cached audio and answer returns the literal id of the
current track; the resulting session state is finalized and agrees with
the input session on every other field (in particular the success counter
is never incremented), and when the session was still unresolved the
state change is exactly the transition to Finalized. -/
theorem C6_reveal_forfeits (s : Session) (c : Cache) (m : Track)
    (rest : List Track) (a : List Nat)
    (hw : s.activeMusics = m :: rest) (hc : cacheGet c m.id = some a) :
    ∃ s1 : Session,
      fullMusic s c = RevealResult.ok s1 a ∧
      answer s = (some m.id, s1) ∧
      s1.finalized = true ∧
      s1.succeed = s.succeed ∧
      s1.guessed = s.guessed ∧
      s1.startTime = s.startTime ∧
      s1.activeMusics = s.activeMusics ∧
      s1.remaining = s.remaining ∧
      (s.finalized = false → s1 = { s with finalized := true }) := by
  have hcur : currentMusic s = some m := by simp [currentMusic, hw]
  refine ⟨if s.finalized then s else { s with finalized := true },
    ?_, ?_, ?_, ?_, ?_, ?_, ?_, ?_, ?_⟩
  · simp [fullMusic, hcur, hc]
  · simp [answer, hcur]
  · cases hf : s.finalized <;> simp [hf]
  · cases hf : s.finalized <;> simp [hf]
  · cases hf : s.finalized <;> simp [hf]
  · cases hf : s.finalized <;> simp [hf]
  · cases hf : s.finalized <;> simp [hf]
  · cases hf : s.finalized <;> simp [hf]
  · intro hf
    simp [hf]

theorem C6_reveal_forfeits_witness :
    fullMusic demoInit.1 demoInit.2 =
      RevealResult.ok { demoInit.1 with finalized := true } trackA.audio ∧
      answer demoInit.1 =
        (some trackA.id, { demoInit.1 with finalized := true }) := by
  obtain ⟨s1, h1, h2, _, _, _, _, _, _, h9⟩ :=
    C6_reveal_forfeits demoInit.1 demoInit.2 trackA [trackB] trackA.audio rfl rfl
  rw [h9 rfl] at h1 h2
  exact ⟨h1, h2⟩

/-- C7: step is a no-op when the active window is empty; otherwise it
unloads the current track from the shared cache and pops it from the
window, loads the next not-yet-windowed catalog track (when one remains)
into the window and the cache, resets the slice start to None, increments
the guessed counter by exactly one, clears the finalized flag and leaves
the success counter unchanged. -/
theorem C7_step_effects (s : Session) (c : Cache) :
    (s.activeMusics = [] → step s c = (s, c)) ∧
    ∀ m rest, s.activeMusics = m :: rest →
      (step s c).1.guessed = s.guessed + 1 ∧
      (step s c).1.finalized = false ∧
      (step s c).1.startTime = none ∧
      (step s c).1.succeed = s.succeed ∧
      (step s c).1.activeMusics = rest ++ s.remaining.take 1 ∧
      (step s c).1.remaining = s.remaining.drop 1 ∧
      (step s c).2 = (match s.remaining with
        | [] => cacheUnload c m.id
        | t :: _ => cacheLoad (cacheUnload c m.id) t) := by
  constructor
  · intro h
    simp [step, currentMusic, h]
  · intro m rest hw
    have hcur : currentMusic s = some m := by simp [currentMusic, hw]
    cases hr : s.remaining with
    | nil =>
        refine ⟨?_, ?_, ?_, ?_, ?_, ?_, ?_⟩ <;>
          simp [step, activeNextMusic, hcur, hr, hw]
    | cons t rr =>
        refine ⟨?_, ?_, ?_, ?_, ?_, ?_, ?_⟩ <;>
          simp [step, activeNextMusic, hcur, hr, hw]

theorem C7_step_effects_witness :
    step soloDone.1 soloDone.2 = (soloDone.1, soloDone.2) ∧
      (step demoInit.1 demoInit.2).1.guessed = demoInit.1.guessed + 1 :=
  ⟨(C7_step_effects soloDone.1 soloDone.2).1 rfl,
   ((C7_step_effects demoInit.1 demoInit.2).2 trackA [trackB] rfl).1⟩

/-- C8 counterexample: on a session already finalized for its current
track (after a wrong guess), a second guess carrying the current track's
id returns true, not false, so guess is not false-returning whenever the
session is finalized. -/
def c8Session : Session := (guess demoInit.1 999).1

theorem C8_counterexample :
    c8Session.finalized = true ∧ c8Session.activeMusics ≠ [] ∧
      (guess c8Session trackA.id).2 = true := by
  decide

/-- C8 (amended): guess is a no-op returning false whenever the active
window is empty; when the session is already finalized for the current
track, guess leaves the session state unchanged but returns whether the
candidate equals the current track's id rather than always false. -/
theorem C8_guess_noop (s : Session) (cand : Nat) :
    (s.activeMusics = [] → guess s cand = (s, false)) ∧
    (s.finalized = true →
      (guess s cand).1 = s ∧
        ((guess s cand).2 = true ↔
          ∃ m, currentMusic s = some m ∧ m.id = cand)) := by
  constructor
  · intro h
    simp [guess, currentMusic, h]
  · intro hf
    cases hc : currentMusic s with
    | none => simp [guess, hc]
    | some m => simp [guess, hc, hf]

theorem C8_guess_noop_witness :
    (guess c8Session trackA.id).1 = c8Session :=
  ((C8_guess_noop c8Session trackA.id).2 rfl).1

/-- C10: with an empty active window, sliced_music, full_music and answer
all return the no-music (None) result carrying the session state
unchanged: no field of the session is modified and the shared cache is
not touched. -/
theorem C10_empty_window_noops (s : Session) (c : Cache) (cfg : Config)
    (rand : Int → Int → Int) (h : s.activeMusics = []) :
    slicedMusic cfg rand s c = SliceResult.noMusic s ∧
      fullMusic s c = RevealResult.noMusic s ∧
      answer s = (none, s) := by
  have hcur : currentMusic s = none := by simp [currentMusic, h]
  refine ⟨?_, ?_, ?_⟩ <;> simp [slicedMusic, fullMusic, answer, hcur]

theorem C10_empty_window_noops_witness :
    answer soloDone.1 = (none, soloDone.1) :=
  (C10_empty_window_noops soloDone.1 soloDone.2 demoCfg (fun lo _ => lo)
    rfl).2.2

end MusicTest
